import Mathlib

/-!
Verification development for the ternary-stack repository.

The definitions below are a shallow embedding of the arithmetic kernel of
`TritJS-CISA-Optimized.c` (the `T81BigInt` big-integer code) and of the
discrete-opcode surface of `tritsys-1.0.c`.  Machine `unsigned char` stores
are modelled as naturals reduced modulo 256 where the C value can leave
`[0, 255]`; base-81 limb vectors are little-endian `List Nat`; fallible
C functions returning an error code plus an out-parameter are modelled with
`Except Nat`.  Memory management (heap vs. mmap backing, free/unlink) has no
observable effect on the computed values and is not modelled.
-/

set_option autoImplicit false
set_option maxRecDepth 100000

/-- A `T81BigInt` of `TritJS-CISA-Optimized.c`: `sign` is `0` for
non-negative and `1` for negative, `digits` is the little-endian vector of
base-81 limbs (C `unsigned char` values). -/
structure T81BigInt where
  sign : Nat
  digits : List Nat
  deriving DecidableEq, Repr

deriving instance DecidableEq for Except

/-- C cast of an `int` to `unsigned char`: reduction modulo $2^8$. -/
def toUChar (i : Int) : Nat := (i % 256).toNat

/-- Magnitude of a little-endian base-81 limb vector. -/
def valLimbs (ds : List Nat) : Nat := ds.foldr (fun d acc => d + 81 * acc) 0

/-- Signed value of a `T81BigInt`. -/
def valT81 (x : T81BigInt) : Int :=
  (if x.sign = 0 then 1 else -1) * (valLimbs x.digits : Int)

/-- Strip high-order zero limbs, keeping the single-limb zero: the
`while (len > 1 && digits[len-1] == 0) len--;` idiom of the C code. -/
def stripHigh (ds : List Nat) : List Nat :=
  let r := (ds.reverse.dropWhile (fun d => d = 0)).reverse
  if r.isEmpty then [0] else r

/-- Canonical form of §3 of the spec: limbs in `[0, 80]`, high-order zero
limbs stripped except the single-limb zero, sign `0` for the value zero. -/
def Canonical (x : T81BigInt) : Prop :=
  (∀ d ∈ x.digits, d ≤ 80) ∧
  x.digits ≠ [] ∧
  (x.digits = [0] ∨ x.digits.getLast? ≠ some 0) ∧
  (x.sign = 0 ∨ x.sign = 1) ∧
  (valLimbs x.digits = 0 → x.sign = 0)

instance (x : T81BigInt) : Decidable (Canonical x) := by
  unfold Canonical; infer_instance

/- ------------------------------------------------------------------
Base conversion: `parse_trit_string_base81_optimized` and
`t81bigint_to_trit_string` of TritJS-CISA-Optimized.c.
------------------------------------------------------------------ -/

/-- One pass of the in-place accumulator loop of
`parse_trit_string_base81_optimized`:
`for j: val = digits[j]*base + carry; digits[j] = val % 81; carry = val / 81`.
Returns the updated limbs and the carry out of the top limb. -/
def mulAddStep (base : Nat) : List Nat → Nat → List Nat × Nat
  | [], c => ([], c)
  | d :: ds, c =>
    let v := d * base + c
    let (rest, cf) := mulAddStep base ds (v / 81)
    (v % 81 :: rest, cf)

/-- The carry-extension loop of the C parser.  Each iteration calls
`allocate_digits(out, len+1)`, which allocates a FRESH zeroed buffer (the
previous limb contents are lost), then stores `carry % 81` at the old top
position. -/
def growStoreF : Nat → List Nat → Nat → List Nat
  | 0, ds, _ => ds
  | fuel + 1, ds, carry =>
    if carry = 0 then ds
    else growStoreF fuel
      ((List.replicate (ds.length + 1) 0).set ds.length (carry % 81)) (carry / 81)

/-- Entry point for the carry-extension loop; `carry` itself bounds the
iteration count, so the fuel never runs out. -/
def growStore (ds : List Nat) (carry : Nat) : List Nat := growStoreF carry ds carry

/-- Value of a ternary digit character, `none` when outside `0..2`
(the C check `digit < 0 || digit > 2`). -/
def tritDigit (c : Char) : Option Nat :=
  let d : Int := (c.toNat : Int) - 48
  if 0 ≤ d ∧ d ≤ 2 then some d.toNat else none

/-- The leading `remainder = total_len % 4` digits, fed one at a time
through the `acc*3 + d` loop. -/
def parseLead : List Char → List Nat → Except Nat (List Nat)
  | [], ds => .ok ds
  | c :: cs, ds =>
    match tritDigit c with
    | none => .error 2
    | some d =>
      let (ds', cf) := mulAddStep 3 ds d
      parseLead cs (growStore ds' cf)

/-- The four-character groups, each folded into `groupVal` and fed through
the `acc*81 + g` loop. -/
def parseGroups : List Char → List Nat → Except Nat (List Nat)
  | [], ds => .ok ds
  | c0 :: c1 :: c2 :: c3 :: cs, ds =>
    match tritDigit c0, tritDigit c1, tritDigit c2, tritDigit c3 with
    | some d0, some d1, some d2, some d3 =>
      let g := ((d0 * 3 + d1) * 3 + d2) * 3 + d3
      let (ds', cf) := mulAddStep 81 ds g
      parseGroups cs (growStore ds' cf)
    | _, _, _, _ => .error 2
  | _, _ => .error 2

/-- `parse_trit_string_base81_optimized`: optional leading `-`, then the
leading `len % 4` digits one at a time, then four-digit groups, finally the
high-order zero strip. -/
def parse_trit_string_base81_optimized (s : List Char) : Except Nat T81BigInt :=
  if s.isEmpty then .error 2
  else
    let (sign, body) := if s.headD ' ' = '-' then (1, s.tail) else (0, s)
    let r := body.length % 4
    match parseLead (body.take r) [0] with
    | .error e => .error e
    | .ok ds =>
      match parseGroups (body.drop r) ds with
      | .error e => .error e
      | .ok ds' => .ok ⟨sign, stripHigh ds'⟩

/-- `parse_trit_string`: the heap-allocating wrapper adds nothing
observable. -/
def parse_trit_string (s : List Char) : Except Nat T81BigInt :=
  parse_trit_string_base81_optimized s

/-- One division of the limb vector by 3, traversing limbs from the most
significant end with `val = digit + carry*81; digit = val/3; carry = val%3`.
Input and output are big-endian; returns the final remainder. -/
def div3Go : List Nat → Nat → List Nat × Nat
  | [], c => ([], c)
  | d :: ds, c =>
    let v := d + c * 81
    let (qs, cf) := div3Go ds (v % 3)
    (v / 3 :: qs, cf)

/-- The repeated-division loop of `t81bigint_to_trit_string`, producing the
base-3 digit characters least significant first.  `fuel` bounds the number
of iterations (the C buffer capacity is `len*4 + 2`). -/
def toTritLoop : Nat → List Nat → List Char → List Char
  | 0, _, acc => acc
  | fuel + 1, ds, acc =>
    if ds.all (fun d => d = 0) then (if acc.isEmpty then ['0'] else acc)
    else
      let (qs, r) := div3Go ds.reverse 0
      toTritLoop fuel qs.reverse (acc ++ [Char.ofNat (48 + r)])

/-- `t81bigint_to_trit_string`: single-limb zero prints `"0"`; otherwise
divide by 3 repeatedly, append `-` for a negative sign, and reverse. -/
def t81bigint_to_trit_string (x : T81BigInt) : List Char :=
  if x.digits.length = 1 ∧ x.digits.headD 0 = 0 then ['0']
  else
    let core := toTritLoop (4 * x.digits.length + 2) x.digits []
    let withSign := if x.sign ≠ 0 then core ++ ['-'] else core
    withSign.reverse

/- ------------------------------------------------------------------
Balanced-ternary parsing: `parse_balanced_trit_string`.
------------------------------------------------------------------ -/

/-- The per-character digit shift of `parse_balanced_trit_string`:
`'-' ↦ '0'`, `'0' ↦ '1'`, `'+' ↦ '2'`; every other character is
rejected with error 2. -/
def balShift (c : Char) : Option Char :=
  if c = '-' then some '0'
  else if c = '0' then some '1'
  else if c = '+' then some '2'
  else none

/-- The conversion loop of `parse_balanced_trit_string`, stopping with
error 2 at the first out-of-alphabet character. -/
def balMap : List Char → Except Nat (List Char)
  | [] => .ok []
  | c :: cs =>
    match balShift c with
    | none => .error 2
    | some d =>
      match balMap cs with
      | .error e => .error e
      | .ok ds => .ok (d :: ds)

/-- `parse_balanced_trit_string`: shift every character into the unsigned
alphabet, then parse the shifted string as unsigned ternary. -/
def parse_balanced_trit_string (s : List Char) : Except Nat T81BigInt :=
  match balMap s with
  | .error e => .error e
  | .ok unb => parse_trit_string unb

/- ------------------------------------------------------------------
Claim C4: balanced-ternary parsing.
------------------------------------------------------------------ -/

/-- From the BigInt one expects for `from_i64(2)`: 2 = limbs `[2]`. -/
def fromSmall (n : Nat) : T81BigInt := ⟨0, [n]⟩

/-- Whether every character of `s` is in the balanced alphabet the code
actually accepts: `{-, 0, +}`. -/
def balAlphabet (s : List Char) : Prop :=
  ∀ c ∈ s, c = '-' ∨ c = '0' ∨ c = '+'

/-- Total version of the digit shift, for stating the amended claim. -/
def balShiftTotal (c : Char) : Char :=
  if c = '-' then '0' else if c = '0' then '1' else '2'

instance (s : List Char) : Decidable (balAlphabet s) := by
  unfold balAlphabet; infer_instance

/- ------------------------------------------------------------------
Ternary logical operations (applied limb-wise by the C code).
------------------------------------------------------------------ -/

/-- `int ternary_and(int a, int b) { return a < b ? a : b; }` -/
def ternary_and (a b : Nat) : Nat := if a < b then a else b

/-- `int ternary_or(int a, int b) { return a > b ? a : b; }` -/
def ternary_or (a b : Nat) : Nat := if a > b then a else b

/-- `int ternary_not(int a) { return 2 - a; }` (C `int`, may be negative). -/
def ternary_not (a : Nat) : Int := 2 - (a : Int)

/-- `int ternary_xor(int a, int b) { return (a + b) % 3; }` -/
def ternary_xor (a b : Nat) : Nat := (a + b) % 3

/-- `tritjs_logical_and`: limb-wise over `max` length, shorter operand read
as 0, result sign set to 0, no normalization. -/
def tritjs_logical_and (A B : T81BigInt) : T81BigInt :=
  let len := max A.digits.length B.digits.length
  ⟨0, (List.range len).map
    (fun i => ternary_and (A.digits.getD i 0) (B.digits.getD i 0))⟩

/-- `tritjs_logical_or`. -/
def tritjs_logical_or (A B : T81BigInt) : T81BigInt :=
  let len := max A.digits.length B.digits.length
  ⟨0, (List.range len).map
    (fun i => ternary_or (A.digits.getD i 0) (B.digits.getD i 0))⟩

/-- `tritjs_logical_xor`. -/
def tritjs_logical_xor (A B : T81BigInt) : T81BigInt :=
  let len := max A.digits.length B.digits.length
  ⟨0, (List.range len).map
    (fun i => ternary_xor (A.digits.getD i 0) (B.digits.getD i 0))⟩

/-- `tritjs_logical_not`: each limb is stored as
`(unsigned char) ternary_not(a)`. -/
def tritjs_logical_not (A : T81BigInt) : T81BigInt :=
  ⟨0, A.digits.map (fun a => toUChar (ternary_not a))⟩

/- ------------------------------------------------------------------
Magnitude comparison and signed addition/subtraction.
------------------------------------------------------------------ -/

/-- Big-endian lexicographic comparison of two equal-length digit lists:
the common-prefix loop at the end of `cmp_base81`. -/
def cmpBE : List Nat → List Nat → Int
  | a :: as, b :: bs =>
    if a < b then -1 else if b < a then 1 else cmpBE as bs
  | _, _ => 0

/-- `cmp_base81`: if one vector is longer, any nonzero digit in its high
part decides; otherwise compare the common limbs from the top down. -/
def cmp_base81 (a b : List Nat) : Int :=
  if (a.drop b.length).any (fun d => decide (d ≠ 0)) then 1
  else if (b.drop a.length).any (fun d => decide (d ≠ 0)) then -1
  else
    let m := min a.length b.length
    cmpBE (a.take m).reverse (b.take m).reverse

/-- The carry-propagation inner `while` of the same-sign branch of
`tritjs_add_big`: `while (carry && cpos < len)`. -/
def propCarry : Nat → List Nat → Nat → Nat → List Nat
  | 0, res, _, _ => res
  | fuel + 1, res, cpos, carry =>
    if carry = 0 ∨ res.length ≤ cpos then res
    else
      let v := res.getD cpos 0 + carry
      propCarry fuel (res.set cpos (v % 81)) (cpos + 1) (v / 81)

/-- The same-sign digit loop of `tritjs_add_big`. -/
def addLoop : List Nat → Nat → List Nat → List Nat
  | [], _, res => res
  | b :: bs, i, res =>
    let v := res.getD i 0 + b
    let res1 := res.set i (v % 81)
    addLoop bs (i + 1) (propCarry res1.length res1 (i + 1) (v / 81))

/-- The borrow loop of the opposite-sign branch: decrement (wrapping as an
`unsigned char`), stop unless the limb wrapped to 255, in which case add
back 81 and continue at the next position while it exists. -/
def borrowLoop : Nat → List Nat → Nat → List Nat
  | 0, res, _ => res
  | fuel + 1, res, j =>
    let d := (res.getD j 0 + 255) % 256
    let res1 := res.set j d
    if d ≠ 255 then res1
    else
      let res2 := res1.set j ((d + 81) % 256)
      if res1.length ≤ j + 1 then res2 else borrowLoop fuel res2 (j + 1)

/-- The magnitude-subtraction loop: `diff = res[i] - smaller[i]`, borrow
from above when negative, then store `(unsigned char) diff`. -/
def subLoop : List Nat → Nat → List Nat → List Nat
  | [], _, res => res
  | s :: ss, i, res =>
    let diff : Int := (res.getD i 0 : Int) - (s : Int)
    let p :=
      if diff < 0 then (diff + 81, borrowLoop res.length res (i + 1))
      else (diff, res)
    subLoop ss (i + 1) (p.2.set i (toUChar p.1))

/-- `tritjs_add_big`: same-sign magnitude add with carry, otherwise
compare magnitudes and subtract the smaller from the larger; the zero
result of the equal-magnitude case keeps the calloc sign 0. -/
def tritjs_add_big (A B : T81BigInt) : T81BigInt :=
  if A.sign = B.sign then
    let len := max A.digits.length B.digits.length + 1
    let res0 := A.digits ++ List.replicate (len - A.digits.length) 0
    ⟨A.sign, stripHigh (addLoop B.digits 0 res0)⟩
  else
    let c := cmp_base81 A.digits B.digits
    if c = 0 then ⟨0, [0]⟩
    else
      let larger := if 0 < c then A else B
      let smaller := if 0 < c then B else A
      ⟨larger.sign, stripHigh (subLoop smaller.digits 0 larger.digits)⟩

/-- `tritjs_subtract_big`: add `A` to `B` with the `!`-negated sign. -/
def tritjs_subtract_big (A B : T81BigInt) : T81BigInt :=
  tritjs_add_big A ⟨if B.sign = 0 then 1 else 0, B.digits⟩

/- ------------------------------------------------------------------
Long division: `tritjs_divide_big`.
------------------------------------------------------------------ -/

/-- The per-position small multiplication of the division loop:
`val = (j < b->len ? b->digits[j] * m : 0) + carry` over `n` positions,
returning the digit list and the carry out of the last position. -/
def mulSmallGo (b : List Nat) (m : Nat) : Nat → Nat → Nat → List Nat × Nat
  | 0, _, c => ([], c)
  | n + 1, j, c =>
    let v := b.getD j 0 * m + c
    let r := mulSmallGo b m n (j + 1) (v / 81)
    (v % 81 :: r.1, r.2)

/-- The trial-digit search: grow `q` while `(q+1) * B ≤ remainder`.  When
the trial product carries out of the remainder's length, the C code calls
`allocate_digits(prod, len+1)`, which zeroes the freshly computed digits
and stores only the carry at the top. -/
def qSearch (b rem : List Nat) : Nat → Nat → Nat
  | 0, q => q
  | fuel + 1, q =>
    let m := q + 1
    let r := mulSmallGo b m rem.length 0 0
    let prod :=
      if r.2 ≠ 0 then (List.replicate (rem.length + 1) 0).set rem.length (toUChar (r.2 : Int))
      else r.1
    if cmp_base81 rem prod < 0 then q
    else qSearch b rem fuel (q + 1)

/-- One position of the division loop: bring limb `ad` of the dividend
into the LOW end of the running remainder, search the trial digit, store
it (as an `unsigned char`), and subtract `q · B` (carry beyond the
remainder length dropped, per `prod->len = remainder->len`). -/
def divideStep (bd : List Nat) (ad : Nat) (quot : List Nat) (i : Nat)
    (rem : T81BigInt) : List Nat × T81BigInt :=
  let newR := ad :: rem.digits
  let rem1 : T81BigInt := ⟨rem.sign, newR⟩
  let q := qSearch bd newR (81 ^ newR.length + 2) 0
  let quot' := quot.set i (toUChar (q : Int))
  let pd := (mulSmallGo bd q newR.length 0 0).1
  (quot', tritjs_subtract_big rem1 ⟨0, pd⟩)

/-- The dividend limbs processed from the most significant end. -/
def divideFold (bd : List Nat) : List Nat → Nat → List Nat → T81BigInt →
    List Nat × T81BigInt
  | [], _, quot, rem => (quot, rem)
  | ad :: rest, i, quot, rem =>
    let p := divideStep bd ad quot i rem
    divideFold bd rest (i - 1) p.1 p.2

/-- `tritjs_divide_big`: all-zero divisor signals 3; the running remainder
is INITIALIZED TO A COPY OF THE DIVIDEND before the bring-down loop runs
over every dividend limb again; quotient sign is the XOR of the operand
signs, remainder sign is the dividend's sign. -/
def tritjs_divide_big (a b : T81BigInt) : Except Nat (T81BigInt × T81BigInt) :=
  if b.digits.all (fun d => d = 0) then .error 3
  else
    let q := divideFold b.digits a.digits.reverse (a.digits.length - 1)
      (List.replicate a.digits.length 0) ⟨0, a.digits⟩
    .ok (⟨if a.sign = b.sign then 0 else 1, stripHigh q.1⟩,
         ⟨a.sign, stripHigh q.2.digits⟩)

/-- Claim C7 counterexample, with the trit-level reference semantics
modelled from the spec (§4.7): each limb expands to four trits, the
operations act trit-wise.  Modelled from the spec: the source has no
trit-expanded logical path; its operations act on whole base-81 limbs. -/
def limbTrits (d : Nat) : List Nat := [d % 3, d / 3 % 3, d / 9 % 3, d / 27 % 3]

/-- Trit expansion of a limb vector (least significant trit first). -/
def limbsToTrits (ds : List Nat) : List Nat := (ds.map limbTrits).flatten

/-- Repack trits (four per limb) into base-81 limbs. -/
def tritsToLimbs : List Nat → List Nat
  | [] => []
  | [t0] => [t0]
  | [t0, t1] => [t0 + 3 * t1]
  | [t0, t1, t2] => [t0 + 3 * t1 + 9 * t2]
  | t0 :: t1 :: t2 :: t3 :: rest =>
    (t0 + 3 * t1 + 9 * t2 + 27 * t3) :: tritsToLimbs rest

/-- Modelled from the spec (§4.7): `and` over aligned trit positions, the
shorter operand padded with 0 trits, result non-negative and stripped. -/
def tritwise_and_spec (A B : T81BigInt) : T81BigInt :=
  let ta := limbsToTrits A.digits
  let tb := limbsToTrits B.digits
  let n := max ta.length tb.length
  ⟨0, stripHigh (tritsToLimbs ((List.range n).map
    (fun i => min (ta.getD i 0) (tb.getD i 0))))⟩

/- ------------------------------------------------------------------
Multiplication: `naive_mul`, `karatsuba`,
`t81bigint_karatsuba_multiply`.
------------------------------------------------------------------ -/

/-- Inner loop of `naive_mul` for one digit `a` of the first operand:
`val = out[pos] + a*b + carry`, stores `val % 81`, returns the final
carry. -/
def naiveInner (a : Nat) : List Nat → Nat → Nat → List Nat → List Nat × Nat
  | [], _, carry, out => (out, carry)
  | b :: bs, pos, carry, out =>
    let v := out.getD pos 0 + a * b + carry
    naiveInner a bs (pos + 1) (v / 81) (out.set pos (v % 81))

/-- Outer loop of `naive_mul`; the final carry of each row is ADDED into
`out[i + blen]` as an `unsigned char` without further propagation. -/
def naiveOuter (B : List Nat) : List Nat → Nat → List Nat → List Nat
  | [], _, out => out
  | a :: as, i, out =>
    let p := naiveInner a B i 0 out
    let idx := i + B.length
    naiveOuter B as (i + 1) (p.1.set idx ((p.1.getD idx 0 + p.2) % 256))

/-- `naive_mul`: schoolbook convolution into a zeroed buffer of length
`alen + blen`. -/
def naive_mul (A B : List Nat) : List Nat :=
  naiveOuter B A 0 (List.replicate (A.length + B.length) 0)

/-- `add_shifted`: add `src` into `dest` at offset `shift`, stopping at
the end of `dest` (the carry is then dropped), with a tail
carry-propagation loop from `slen + shift` — the same loop shape as
`propCarry`. -/
def addShiftedGo : List Nat → Nat → Nat → List Nat → List Nat × Nat
  | [], _, carry, dest => (dest, carry)
  | s :: ss, idx, carry, dest =>
    if dest.length ≤ idx then (dest, carry)
    else
      let v := dest.getD idx 0 + s + carry
      addShiftedGo ss (idx + 1) (v / 81) (dest.set idx (v % 81))

/-- `add_shifted` entry point. -/
def add_shifted (dest src : List Nat) (shift : Nat) : List Nat :=
  let p := addShiftedGo src shift 0 dest
  propCarry p.1.length p.1 (src.length + shift) p.2

/-- `sub_inplace` digit loop: borrow-propagating subtraction over
`length` positions, each store cast to `unsigned char`. -/
def subInplaceGo (src : List Nat) : Nat → Nat → Int → List Nat → List Nat
  | 0, _, _, out => out
  | n + 1, i, bor, out =>
    let diff : Int := (out.getD i 0 : Int) - (src.getD i 0 : Int) - bor
    if diff < 0 then subInplaceGo src n (i + 1) 1 (out.set i (toUChar (diff + 81)))
    else subInplaceGo src n (i + 1) 0 (out.set i (toUChar diff))

/-- `sub_inplace`. -/
def sub_inplace (out src : List Nat) (length : Nat) : List Nat :=
  subInplaceGo src length 0 0 out

/-- The half-sum loop of `karatsuba`: `sumA` starts as a copy of `A1`
(length `r`) and receives `A0` digit-wise; a carry is added into the next
limb ONLY when `i + 1 < r`, so a carry out of limb `r - 1` is DROPPED
(this happens exactly when `half = r`, i.e. for even `n`). -/
def sumHalvesGo (a0 : List Nat) (r : Nat) : Nat → Nat → List Nat → List Nat
  | 0, _, sum => sum
  | n + 1, i, sum =>
    let s := sum.getD i 0 + a0.getD i 0
    let sum1 := sum.set i (s % 81)
    let c := s / 81
    let sum2 :=
      if c ≠ 0 ∧ i + 1 < r then sum1.set (i + 1) ((sum1.getD (i + 1) 0 + c) % 256)
      else sum1
    sumHalvesGo a0 r n (i + 1) sum2

/-- `karatsuba`: naive below 17 digits, otherwise split at `half = n/2`,
recurse on the three sub-products (buffers calloc'd at `2n`), combine with
two `sub_inplace` and three `add_shifted` passes.  `fuel` only bounds the
recursion depth; `fuel = n` always suffices. -/
def karatsubaF : Nat → List Nat → List Nat → Nat → List Nat
  | fuel, A, B, n =>
    if n ≤ 16 then naive_mul (A.take n) (B.take n)
    else
      match fuel with
      | 0 => List.replicate (2 * n) 0
      | fuel + 1 =>
        let half := n / 2
        let r := n - half
        let A0 := A.take half
        let A1 := (A.drop half).take r
        let B0 := B.take half
        let B1 := (B.drop half).take r
        let len2 := 2 * n
        let p1 := karatsubaF fuel A0 B0 half ++ List.replicate (len2 - 2 * half) 0
        let p2 := karatsubaF fuel A1 B1 r ++ List.replicate (len2 - 2 * r) 0
        let sumA := sumHalvesGo A0 r half 0 A1
        let sumB := sumHalvesGo B0 r half 0 B1
        let p3 := karatsubaF fuel sumA sumB r ++ List.replicate (len2 - 2 * r) 0
        let p3s := sub_inplace (sub_inplace p3 p1 len2) p2 len2
        add_shifted (add_shifted (add_shifted (List.replicate len2 0) p1 0)
          p3s half) p2 (2 * half)

/-- `t81bigint_karatsuba_multiply`: single-limb zero operands short-cut to
zero; otherwise both operands are zero-padded to the common length `n`,
multiplied, the sign is the XOR of the operand signs, and the product is
stripped. -/
def t81bigint_karatsuba_multiply (a b : T81BigInt) : T81BigInt :=
  if (a.digits.length = 1 ∧ a.digits.headD 0 = 0) ∨
     (b.digits.length = 1 ∧ b.digits.headD 0 = 0) then ⟨0, [0]⟩
  else
    let n := max a.digits.length b.digits.length
    let A := a.digits ++ List.replicate (n - a.digits.length) 0
    let B := b.digits ++ List.replicate (n - b.digits.length) 0
    ⟨if a.sign = b.sign then 0 else 1, stripHigh (karatsubaF n A B n)⟩

/- ------------------------------------------------------------------
Multiplication cache and `multiply_with_cache`.
------------------------------------------------------------------ -/

/-- One slot of the eight-entry multiplication result cache. -/
structure MulCacheEntry where
  key : List Char
  result : T81BigInt
  used : Bool
  deriving DecidableEq, Repr

/-- The zero-initialized `static MulCacheEntry mul_cache[8]`. -/
def initMulCache : List MulCacheEntry :=
  List.replicate 8 ⟨[], ⟨0, []⟩, false⟩

/-- The cache key `snprintf(key, 128, "mul:%s:%s", as, bs)`: built in
ARGUMENT ORDER and truncated to 127 characters. -/
def mulKeyText (as bs : List Char) : List Char :=
  (('m' :: 'u' :: 'l' :: ':' :: as) ++ ':' :: bs).take 127

/-- The key `multiply_with_cache` computes for the operand pair `(a, b)`. -/
def mulKey (a b : T81BigInt) : List Char :=
  mulKeyText (t81bigint_to_trit_string a) (t81bigint_to_trit_string b)

/-- `mul_cache_lookup`: first used slot whose key matches. -/
def mul_cache_lookup : List MulCacheEntry → List Char → Option T81BigInt
  | [], _ => none
  | e :: es, key =>
    if e.used ∧ e.key = key then some e.result else mul_cache_lookup es key

/-- `mul_cache_store`: first unused slot, falling back to slot 0. -/
def mul_cache_store (st : List MulCacheEntry) (key : List Char)
    (val : T81BigInt) : List MulCacheEntry :=
  let idx := st.findIdx (fun e => !e.used)
  st.set (if idx < st.length then idx else 0) ⟨key, val, true⟩

/-- `multiply_with_cache`: text both operands, look the key up, otherwise
multiply and store. -/
def multiply_with_cache (st : List MulCacheEntry) (a b : T81BigInt) :
    T81BigInt × List MulCacheEntry :=
  let key := mulKey a b
  match mul_cache_lookup st key with
  | some v => (v, st)
  | none =>
    let out := t81bigint_karatsuba_multiply a b
    (out, mul_cache_store st key out)

/- ------------------------------------------------------------------
Exponentiation: `tritjs_power_big`.
------------------------------------------------------------------ -/

/-- The repeated-multiplication loop of `tritjs_power_big`, threading the
cache state. -/
def powLoop (base : T81BigInt) :
    Nat → T81BigInt × List MulCacheEntry → T81BigInt × List MulCacheEntry
  | 0, acc => acc
  | n + 1, acc => powLoop base n (multiply_with_cache acc.2 acc.1 base)

/-- `tritjs_power_big`: a signed exponent yields 6; an exponent that is
not a single limb below 81 (`is_small_value`) yields 4; the `e > 1000`
check follows but can never fire after `is_small_value`; the result is the
`e`-fold cached product starting from 1, with the sign forced negative
when the base is negative and `e` is odd. -/
def tritjs_power_big (base exp : T81BigInt) (st : List MulCacheEntry) :
    Except Nat T81BigInt × List MulCacheEntry :=
  if exp.sign ≠ 0 then (.error 6, st)
  else if ¬ (exp.digits.length = 1 ∧ exp.digits.headD 0 < 81) then (.error 4, st)
  else
    let e := exp.digits.headD 0
    if e > 1000 then (.error 4, st)
    else
      let p := powLoop base e (⟨0, [1]⟩, st)
      (.ok (if base.sign ≠ 0 ∧ e % 2 = 1 then ⟨1, p.1.digits⟩ else p.1), p.2)

/- ------------------------------------------------------------------
Discrete opcodes of tritsys-1.0.c.  Its `T81BigInt` is a different
structure: balanced trits stored as `signed char` values in `{-1, 0, 1}`
little-endian, and a three-valued `sign` in `{-1, 0, 1}`.
------------------------------------------------------------------ -/

/-- A tritsys `T81BigInt` (balanced-trit digit vector). -/
structure TS81 where
  sign : Int
  digits : List Int
  deriving DecidableEq, Repr

/-- Digit-count loop of `t81bigint_from_int`:
`while (temp > 0) { len++; temp /= 3; }` (fuel-bounded; `n` iterations
always suffice). -/
def tsLenF : Nat → Nat → Nat
  | 0, _ => 0
  | fuel + 1, n => if n = 0 then 0 else tsLenF fuel (n / 3) + 1

/-- Number of unsigned base-3 digits of `n`. -/
def tsLen (n : Nat) : Nat := tsLenF n n

/-- The balanced-digit loop of `t81bigint_from_int`: runs for at most
`len` iterations (`abs_num > 0 && i < len`), so when the balanced form
needs one digit more than the unsigned form the top digit is NEVER
emitted; unvisited positions keep their calloc zeros. -/
def tsDigitsGo : Nat → Nat → List Int
  | 0, _ => []
  | cnt + 1, a =>
    if a = 0 then List.replicate (cnt + 1) 0
    else
      let rem := a % 3
      (if rem = 2 then (-1 : Int) else (rem : Int)) ::
        tsDigitsGo cnt (if rem = 2 then a / 3 + 1 else a / 3)

/-- `t81bigint_from_int`. -/
def t81bigint_from_int (num : Int) : TS81 :=
  if num = 0 then ⟨0, [0]⟩
  else
    let a := num.natAbs
    ⟨if num < 0 then -1 else 1, tsDigitsGo (tsLen a) a⟩

/-- `t81bigint_to_string`: sign prefix, then the digits above the
stripped top zeros from most significant to least, `1 ↦ '1'`,
`-1 ↦ 'T'`, otherwise `'0'`; an all-zero digit vector collapses to
`"0"` (overwriting any sign prefix, per the `strcpy`). -/
def t81bigint_to_string (x : TS81) : List Char :=
  if x.sign = 0 then ['0']
  else
    let kept := x.digits.reverse.dropWhile (fun d => d = 0)
    if kept.isEmpty then ['0']
    else
      (if x.sign = -1 then ['-'] else []) ++
        kept.map (fun d => if d = 1 then '1' else if d = -1 then 'T' else '0')

/-- Character value used by both checksum loops:
`c == 'T' ? -1 : c - '0'` (so `'-'` contributes `-3` in `validate`). -/
def tsCharVal (c : Char) : Int := if c = 'T' then -1 else (c.toNat : Int) - 48

/-- C `sprintf("%d", i)` for an `int`. -/
def intDecChars (i : Int) : List Char :=
  if i < 0 then '-' :: Nat.toDigits 10 (-i).toNat else Nat.toDigits 10 i.toNat

/-- `discrete_opcode_encode`: the balanced-ternary text of the opcode,
followed by the C-`%`-9 running checksum of the digit characters BEFORE
any `'-'` (C `%` truncates toward zero, so the checksum can be negative,
in which case `sprintf` appends TWO characters). -/
def discrete_opcode_encode (opcode : Int) : List Char :=
  let buf := t81bigint_to_string (t81bigint_from_int opcode)
  buf ++ intDecChars
    ((buf.takeWhile (fun c => c ≠ '-')).foldl
      (fun x c => (x + tsCharVal c).tmod 9) 0)

/-- The character-checking checksum loop of `discrete_opcode_validate`:
`none` when a character outside `{T, -, 0, 1, 2}` appears. -/
def validateGo : List Char → Int → Option Int
  | [], acc => some acc
  | c :: cs, acc =>
    if c ≠ 'T' ∧ c ≠ '-' ∧ (c < '0' ∨ '2' < c) then none
    else validateGo cs ((acc + tsCharVal c).tmod 9)

/-- `discrete_opcode_validate`: at least two characters, the last a
decimal digit, and the running checksum of the rest must equal it. -/
def discrete_opcode_validate (s : List Char) : Bool :=
  if s.length < 2 ∨ ¬ (s.getLastD ' ').isDigit then false
  else
    match validateGo (s.take (s.length - 1)) 0 with
    | none => false
    | some computed =>
      computed = ((s.getLastD ' ').toNat : Int) - 48

/- ------------------------------------------------------------------
Theorems.
------------------------------------------------------------------ -/

/- ------------------------------------------------------------------
Claim C2: round-trip `parse ∘ to_text`.
------------------------------------------------------------------ -/

/-- Claim C2: for every canonical BigInt and each radix, parsing the text
produced by `to_text` yields the BigInt back.  This FAILS on the code: the
carry-extension path of `parse_trit_string_base81_optimized` grows the limb
vector with `allocate_digits`, which allocates a fresh zeroed buffer and so
discards every limb computed up to that point.  Witnessed at the canonical
value 142 (limbs `[61, 1]`): `to_text` renders it as `"12021"`, but parsing
`"12021"` back returns 81 (limbs `[0, 1]`). -/
theorem parse_toText_roundTrip_fails_at_142 :
    Canonical ⟨0, [61, 1]⟩ ∧
    t81bigint_to_trit_string ⟨0, [61, 1]⟩ = "12021".data ∧
    parse_trit_string "12021".data = .ok ⟨0, [0, 1]⟩ ∧
    (⟨0, [0, 1]⟩ : T81BigInt) ≠ ⟨0, [61, 1]⟩ ∧
    valLimbs [0, 1] = 81 ∧ valLimbs [61, 1] = 142 := by
  refine ⟨by decide, by decide, by decide, by decide, by decide, by decide⟩

/-- Claim C4 counterexample: the claim says balanced parsing accepts the
alphabet `{T, 0, 1}` and that `parse("1T", balanced) = from_i64(2)`.  The
code's alphabet is `{-, 0, +}`: both `'1'` and `'T'` are rejected, so
`parse_balanced_trit_string "1T"` signals InvalidInput (2) instead of
producing 2. -/
theorem parse_balanced_1T_is_invalid :
    parse_balanced_trit_string "1T".data = .error 2 ∧
    parse_balanced_trit_string "1T".data ≠ .ok (fromSmall 2) := by
  refine ⟨by decide, by decide⟩

/-- Claim C4 amended: balanced-ternary parsing accepts exactly the
characters `{-, 0, +}` (with no leading-sign handling), shifts them by
`'-' ↦ 0`, `'0' ↦ 1`, `'+' ↦ 2`, and parses the shifted string as unsigned
ternary; any other character (including `T` and `1`) signals
InvalidInput (2). -/
theorem parse_balanced_shifts_alphabet (s : List Char) :
    parse_balanced_trit_string s =
      if balAlphabet s then parse_trit_string (s.map balShiftTotal)
      else .error 2 := by
  unfold parse_balanced_trit_string
  have h : ∀ t : List Char,
      balMap t = if balAlphabet t then .ok (t.map balShiftTotal)
        else .error 2 := by
    intro t
    induction t with
    | nil => simp [balMap, balAlphabet]
    | cons c cs ih =>
      by_cases hc : c = '-' ∨ c = '0' ∨ c = '+'
      · have hshift : balShift c = some (balShiftTotal c) := by
          rcases hc with h | h | h <;> simp [h, balShift, balShiftTotal]
        by_cases hcs : balAlphabet cs
        · have hall : balAlphabet (c :: cs) := by
            intro x hx
            rcases List.mem_cons.mp hx with rfl | hx'
            · exact hc
            · exact hcs x hx'
          simp only [balMap, hshift, ih, if_pos hcs, if_pos hall, List.map]
        · have hnall : ¬ balAlphabet (c :: cs) := by
            intro hall
            exact hcs (fun x hx => hall x (List.mem_cons_of_mem c hx))
          simp only [balMap, hshift, ih, if_neg hcs, if_neg hnall]
      · have hshift : balShift c = none := by
          unfold balShift
          rcases not_or.mp hc with ⟨h1, h23⟩
          rcases not_or.mp h23 with ⟨h2, h3⟩
          simp [h1, h2, h3]
        have hnall : ¬ balAlphabet (c :: cs) := by
          intro hall
          exact hc (hall c (List.mem_cons_self c cs))
        simp only [balMap, hshift, if_neg hnall]
  rw [h s]
  by_cases hs : balAlphabet s
  · simp [if_pos hs]
  · simp [if_neg hs]

/- ------------------------------------------------------------------
Claim C1: the Euclidean contract of `tritjs_divide_big`.
------------------------------------------------------------------ -/

/-- Claim C1: `divmod(A, B)` should return `Q, R` with `Q·B + R = A` and
`|R| < |B|`.  This FAILS on the code: the running remainder is initialized
to a copy of the whole dividend before the bring-down loop feeds every
dividend limb in again, so the loop effectively divides
`A·81^len + A`, and the unbounded trial digit is truncated to an
`unsigned char`.  At `A = 5`, `B = 2` (canonical inputs) the code returns
`Q = 205`, `R = 0`, but `205·2 + 0 = 410 ≠ 5` (the true answer is
`Q = 2`, `R = 1`). -/
theorem divide_breaks_euclidean_identity :
    Canonical ⟨0, [5]⟩ ∧ Canonical ⟨0, [2]⟩ ∧
    tritjs_divide_big ⟨0, [5]⟩ ⟨0, [2]⟩ = .ok (⟨0, [205]⟩, ⟨0, [0]⟩) ∧
    valT81 ⟨0, [205]⟩ * valT81 ⟨0, [2]⟩ + valT81 ⟨0, [0]⟩ ≠ valT81 ⟨0, [5]⟩ := by
  refine ⟨by decide, by decide, by decide, by decide⟩

/- ------------------------------------------------------------------
Claims C5 and C7: shape and semantics of the logical operations.
------------------------------------------------------------------ -/

/-- Claim C5 counterexample: canonical inputs 81 (limbs `[0,1]`) and 1
(limbs `[1]`) produce `and` output `[0, 0]`, which keeps a high-order zero
limb and so is not canonical; `not` on the canonical single limb 5 yields
limb 253, outside `[0, 80]`. -/
theorem logical_ops_break_canonical_form :
    Canonical ⟨0, [0, 1]⟩ ∧ Canonical ⟨0, [1]⟩ ∧
    tritjs_logical_and ⟨0, [0, 1]⟩ ⟨0, [1]⟩ = ⟨0, [0, 0]⟩ ∧
    ¬ Canonical ⟨0, [0, 0]⟩ ∧
    Canonical ⟨0, [5]⟩ ∧
    tritjs_logical_not ⟨0, [5]⟩ = ⟨0, [253]⟩ ∧
    ¬ Canonical ⟨0, [253]⟩ := by
  refine ⟨by decide, by decide, by decide, by decide, by decide, by decide,
    by decide⟩

/-- Value of an element of `(List.range n).map f`, with default 0. -/
theorem getD_range_map (f : Nat → Nat) (n i : Nat) :
    ((List.range n).map f).getD i 0 = if i < n then f i else 0 := by
  by_cases h : i < n
  · rw [if_pos h, List.getD_eq_getElem?_getD, List.getElem?_map,
      List.getElem?_range h]
    rfl
  · rw [if_neg h]
    apply List.getD_eq_default
    simpa using Nat.le_of_not_lt h

/-- Claim C5 amended: the logical operations do not normalize.  `and`,
`or` and `xor` return exactly `max(|A|, |B|)` limbs — high-order zero
limbs are NOT stripped — with the sign field set to 0, and `not` maps each
limb `a` to `(2 - a) mod 256`, which leaves `[0, 80]` whenever `a > 2`. -/
theorem logical_ops_unnormalized_shape (A B : T81BigInt) :
    (tritjs_logical_and A B).sign = 0 ∧
    (tritjs_logical_or A B).sign = 0 ∧
    (tritjs_logical_xor A B).sign = 0 ∧
    (tritjs_logical_and A B).digits.length
      = max A.digits.length B.digits.length ∧
    (tritjs_logical_or A B).digits.length
      = max A.digits.length B.digits.length ∧
    (tritjs_logical_xor A B).digits.length
      = max A.digits.length B.digits.length ∧
    (tritjs_logical_not A).sign = 0 ∧
    (tritjs_logical_not A).digits.length = A.digits.length ∧
    (tritjs_logical_not A).digits
      = A.digits.map (fun a => toUChar (ternary_not a)) := by
  refine ⟨rfl, rfl, rfl, ?_, ?_, ?_, rfl, ?_, rfl⟩ <;>
    simp [tritjs_logical_and, tritjs_logical_or, tritjs_logical_xor,
      tritjs_logical_not]

/-- Claim C7 counterexample: on the canonical limbs 1 (trits `1000`) and 3
(trits `0100`) the trit-wise `and` of the spec is 0, but the code takes
the minimum of the whole limbs and returns 1. -/
theorem logical_and_is_not_tritwise :
    Canonical ⟨0, [1]⟩ ∧ Canonical ⟨0, [3]⟩ ∧
    tritjs_logical_and ⟨0, [1]⟩ ⟨0, [3]⟩ = ⟨0, [1]⟩ ∧
    tritwise_and_spec ⟨0, [1]⟩ ⟨0, [3]⟩ = ⟨0, [0]⟩ ∧
    (⟨0, [1]⟩ : T81BigInt) ≠ ⟨0, [0]⟩ := by
  refine ⟨by decide, by decide, by decide, by decide, by decide⟩

/-- Claim C7 amended: the logical operations act on aligned base-81 LIMB
positions (the shorter operand read as 0), not on trit positions: each
limb of `and(A,B)` is the minimum of the corresponding limbs, `or` the
maximum, `xor` the limb sum modulo 3, and `not` stores
`(2 - limb) mod 256`. -/
theorem logical_ops_are_limbwise (A B : T81BigInt) (i : Nat) :
    (tritjs_logical_and A B).digits.getD i 0
      = ternary_and (A.digits.getD i 0) (B.digits.getD i 0) ∧
    (tritjs_logical_or A B).digits.getD i 0
      = ternary_or (A.digits.getD i 0) (B.digits.getD i 0) ∧
    (tritjs_logical_xor A B).digits.getD i 0
      = ternary_xor (A.digits.getD i 0) (B.digits.getD i 0) ∧
    (tritjs_logical_not A).digits
      = A.digits.map (fun a => toUChar (ternary_not a)) := by
  refine ⟨?_, ?_, ?_, rfl⟩ <;>
  · show ((List.range _).map _).getD i 0 = _
    rw [getD_range_map]
    by_cases h : i < max A.digits.length B.digits.length
    · rw [if_pos h]
    · rw [if_neg h]
      have hA : A.digits.length ≤ i :=
        le_trans (le_max_left _ _) (Nat.le_of_not_lt h)
      have hB : B.digits.length ≤ i :=
        le_trans (le_max_right _ _) (Nat.le_of_not_lt h)
      rw [List.getD_eq_default _ _ hA, List.getD_eq_default _ _ hB]
      rfl

/- ------------------------------------------------------------------
Claim C3: Karatsuba versus schoolbook.
------------------------------------------------------------------ -/

/-- Claim C3: Karatsuba should equal schoolbook on all inputs where both
are defined.  This FAILS on the code: the half-sum loop adds a carry into
`sumA[i+1]` only when `i + 1 < r`, so for even `n` (where `half = r`) a
carry out of the top limb of `A0 + A1` is dropped and the middle
sub-product is computed from a wrong operand.  At `n = 18` with all limbs
80 the two algorithms disagree, the schoolbook product has the correct
value, and the public Karatsuba multiply returns a wrong value. -/
theorem karatsuba_disagrees_with_schoolbook :
    karatsubaF 18 (List.replicate 18 80) (List.replicate 18 80) 18
      ≠ naive_mul (List.replicate 18 80) (List.replicate 18 80) ∧
    valLimbs (naive_mul (List.replicate 18 80) (List.replicate 18 80))
      = valLimbs (List.replicate 18 80) * valLimbs (List.replicate 18 80) ∧
    valLimbs (t81bigint_karatsuba_multiply ⟨0, List.replicate 18 80⟩
        ⟨0, List.replicate 18 80⟩).digits
      ≠ valLimbs (List.replicate 18 80) * valLimbs (List.replicate 18 80) := by
  refine ⟨by decide, by decide, by decide⟩

/- ------------------------------------------------------------------
Claims C6 and C10: the exponentiation contract.
------------------------------------------------------------------ -/

/-- Claim C6 counterexample: the claim says `pow` succeeds for every
exponent `e ≤ 1000`.  The code first requires the exponent to be a single
limb below 81 (`is_small_value`), so the canonical exponent 81
(limbs `[0, 1]`) already signals Overflow (4) even though `81 ≤ 1000`;
the explicit `e > 1000` check is unreachable. -/
theorem power_overflows_at_81 :
    Canonical ⟨0, [0, 1]⟩ ∧ valT81 ⟨0, [0, 1]⟩ = 81 ∧
    (tritjs_power_big ⟨0, [1]⟩ ⟨0, [0, 1]⟩ initMulCache).1 = .error 4 := by
  refine ⟨by decide, by decide, by decide⟩

/-- Claim C6 amended: `pow(base, e)` signals 6 for a negative exponent,
signals Overflow (4) for every exponent of more than one limb (that is,
for every `e > 80`, not `e > 1000`), and succeeds exactly on single-limb
exponents `0 ≤ e ≤ 80`, returning the `e`-fold repeated cached product of
`base` starting from 1, with the sign forced negative when the base is
negative and `e` is odd. -/
theorem power_succeeds_iff_single_limb (base exp : T81BigInt)
    (st : List MulCacheEntry) :
    (exp.sign = 1 → tritjs_power_big base exp st = (.error 6, st)) ∧
    (exp.sign = 0 → 1 < exp.digits.length →
      tritjs_power_big base exp st = (.error 4, st)) ∧
    (∀ e, exp.sign = 0 → exp.digits = [e] → e ≤ 80 →
      (tritjs_power_big base exp st).1 =
        .ok (if base.sign ≠ 0 ∧ e % 2 = 1
             then ⟨1, (powLoop base e (⟨0, [1]⟩, st)).1.digits⟩
             else (powLoop base e (⟨0, [1]⟩, st)).1)) := by
  refine ⟨?_, ?_, ?_⟩
  · intro h1
    rw [tritjs_power_big, if_pos (by omega)]
  · intro h0 hlen
    rw [tritjs_power_big, if_neg (by omega),
      if_pos (by rintro ⟨h1', _⟩; omega)]
  · intro e h0 hd he
    rw [tritjs_power_big, h0, hd]
    rw [if_neg (by omega)]
    rw [if_neg (not_not_intro ⟨rfl, by simp only [List.headD_cons]; omega⟩)]
    simp only [List.headD_cons]
    rw [if_neg (by omega)]

/-- Witness for `power_succeeds_iff_single_limb` at `base = -2`,
`exp = 3`, the initial cache. -/
theorem power_succeeds_witness :
    (tritjs_power_big ⟨1, [2]⟩ ⟨0, [3]⟩ initMulCache).1 =
      .ok (if (⟨1, [2]⟩ : T81BigInt).sign ≠ 0 ∧ 3 % 2 = 1
           then ⟨1, (powLoop ⟨1, [2]⟩ 3 (⟨0, [1]⟩, initMulCache)).1.digits⟩
           else (powLoop ⟨1, [2]⟩ 3 (⟨0, [1]⟩, initMulCache)).1) :=
  (power_succeeds_iff_single_limb ⟨1, [2]⟩ ⟨0, [3]⟩ initMulCache).2.2 3 rfl rfl
    (by decide)

/-- Claim C10: `pow(A, 0)` returns the BigInt one — a single limb 1 with
the non-negative sign 0 — for EVERY base, including `A = 0` (so `0^0 = 1`)
and regardless of the cache state: with exponent 0 the multiplication loop
never runs and the odd-sign override cannot fire. -/
theorem power_zero_exponent_is_one (base : T81BigInt)
    (st : List MulCacheEntry) :
    tritjs_power_big base ⟨0, [0]⟩ st = (.ok ⟨0, [1]⟩, st) := by
  rw [tritjs_power_big, if_neg (by decide), if_neg (by decide)]
  simp [powLoop]

/- ------------------------------------------------------------------
Claim C8: the cache key is order-sensitive.
------------------------------------------------------------------ -/

/-- Claim C8 counterexample: for the canonical operands 1 and 2 the keys
of `(A, B)` and `(B, A)` are `"mul:1:2"` and `"mul:2:1"` — distinct, so
the commutative pair occupies two cache entries. -/
theorem mul_cache_key_order_sensitive :
    Canonical ⟨0, [1]⟩ ∧ Canonical ⟨0, [2]⟩ ∧
    mulKey ⟨0, [1]⟩ ⟨0, [2]⟩ = "mul:1:2".data ∧
    mulKey ⟨0, [2]⟩ ⟨0, [1]⟩ = "mul:2:1".data ∧
    mulKey ⟨0, [1]⟩ ⟨0, [2]⟩ ≠ mulKey ⟨0, [2]⟩ ⟨0, [1]⟩ := by
  refine ⟨by decide, by decide, by decide, by decide, by decide⟩

/-- The division loop produces remainders below 3. -/
theorem div3Go_carry_lt (bs : List Nat) (c : Nat) (hc : c < 3) :
    (div3Go bs c).2 < 3 := by
  induction bs generalizing c with
  | nil => simpa [div3Go] using hc
  | cons d ds ih => simpa [div3Go] using ih _ (Nat.mod_lt _ (by omega))

/-- Every character pushed by the to-text loop is a digit or comes from
the accumulator. -/
theorem toTritLoop_chars (fuel : Nat) :
    ∀ ds acc, (∀ c ∈ acc, c ≠ ':') →
      ∀ c ∈ toTritLoop fuel ds acc, c ≠ ':' := by
  induction fuel with
  | zero => intro ds acc hacc c hc; exact hacc c hc
  | succ f ih =>
    intro ds acc hacc c hc
    rw [toTritLoop] at hc
    by_cases hz : ds.all (fun d => d = 0)
    · rw [if_pos hz] at hc
      by_cases he : acc.isEmpty
      · rw [if_pos he] at hc
        rcases List.mem_singleton.mp hc with rfl
        decide
      · rw [if_neg he] at hc
        exact hacc c hc
    · rw [if_neg hz] at hc
      refine ih _ _ ?_ c hc
      intro x hx
      rcases List.mem_append.mp hx with hx' | hx'
      · exact hacc x hx'
      · rcases List.mem_singleton.mp hx' with rfl
        have h3 : (div3Go ds.reverse 0).2 < 3 := div3Go_carry_lt _ 0 (by omega)
        interval_cases h : (div3Go ds.reverse 0).2 <;> decide

/-- The canonical text form of a BigInt never contains `':'`. -/
theorem toTritString_no_colon (x : T81BigInt) :
    ∀ c ∈ t81bigint_to_trit_string x, c ≠ ':' := by
  intro c hc
  rw [t81bigint_to_trit_string] at hc
  by_cases h0 : x.digits.length = 1 ∧ x.digits.headD 0 = 0
  · rw [if_pos h0] at hc
    rcases List.mem_singleton.mp hc with rfl
    decide
  · rw [if_neg h0] at hc
    simp only [List.mem_reverse] at hc
    by_cases hs : x.sign ≠ 0
    · rw [if_pos hs] at hc
      rcases List.mem_append.mp hc with hc' | hc'
      · exact toTritLoop_chars _ x.digits [] (by simp) c hc'
      · rcases List.mem_singleton.mp hc' with rfl
        decide
    · rw [if_neg hs] at hc
      exact toTritLoop_chars _ x.digits [] (by simp) c hc

/-- Lists around a separator occurring in neither of them: swapping the
sides preserves the concatenation iff the sides are equal. -/
theorem sep_swap_eq_iff (xs ys : List Char) (hx : ':' ∉ xs) (hy : ':' ∉ ys) :
    xs ++ ':' :: ys = ys ++ ':' :: xs ↔ xs = ys := by
  constructor
  · intro h
    have key : ∀ us vs : List Char, ':' ∉ vs →
        us ++ ':' :: vs = vs ++ ':' :: us → ¬ us.length < vs.length := by
      intro us vs hv heq hlt
      have h1 : (us ++ ':' :: vs)[us.length]? = some ':' := by
        rw [List.getElem?_append_right (le_refl _)]
        simp
      rw [heq, List.getElem?_append, if_pos hlt] at h1
      exact hv (List.getElem?_mem h1)
    have hlen : xs.length = ys.length :=
      Nat.le_antisymm (Nat.le_of_not_lt (key ys xs hx h.symm))
        (Nat.le_of_not_lt (key xs ys hy h))
    exact (List.append_inj h hlen).1
  · intro h
    rw [h]

/-- Claim C8 amended: the cache key is `"mul:" ++ text(A) ++ ":" ++
text(B)` in ARGUMENT ORDER (truncated to 127 characters); the keys of
`(A, B)` and `(B, A)` coincide exactly when the two operands have the same
canonical text, so commutative pairs do NOT collapse to one entry in
general. -/
theorem mul_cache_key_commutes_iff (a b : T81BigInt)
    (h : (t81bigint_to_trit_string a).length
        + (t81bigint_to_trit_string b).length ≤ 122) :
    mulKey a b = mulKey b a ↔
      t81bigint_to_trit_string a = t81bigint_to_trit_string b := by
  unfold mulKey mulKeyText
  have hta : ∀ u v : List Char, u.length + v.length ≤ 122 →
      (('m' :: 'u' :: 'l' :: ':' :: u) ++ ':' :: v).take 127
        = 'm' :: 'u' :: 'l' :: ':' :: (u ++ ':' :: v) := by
    intro u v huv
    rw [List.take_of_length_le (by simp; omega)]
    simp
  rw [hta _ _ h, hta _ _ (by omega)]
  constructor
  · intro he
    have he' : t81bigint_to_trit_string a ++ ':' :: t81bigint_to_trit_string b
        = t81bigint_to_trit_string b ++ ':' :: t81bigint_to_trit_string a := by
      simpa using he
    exact (sep_swap_eq_iff _ _
      (fun hc => toTritString_no_colon a ':' hc rfl)
      (fun hc => toTritString_no_colon b ':' hc rfl)).mp he'
  · intro he
    rw [he]

/-- Witness for `mul_cache_key_commutes_iff` at the operands 1 and 2. -/
theorem mul_cache_key_commutes_iff_witness :
    mulKey ⟨0, [1]⟩ ⟨0, [2]⟩ = mulKey ⟨0, [2]⟩ ⟨0, [1]⟩ ↔
      t81bigint_to_trit_string ⟨0, [1]⟩ = t81bigint_to_trit_string ⟨0, [2]⟩ :=
  mul_cache_key_commutes_iff ⟨0, [1]⟩ ⟨0, [2]⟩ (by decide)

/- ------------------------------------------------------------------
Claim C9: encode/validate round trip of the opcode surface.
------------------------------------------------------------------ -/

/-- Claim C9: validation should accept every encoded opcode.  This FAILS
on the code at opcode 5 (`TAND`): the balanced conversion truncates 5 to
the two digits `TT`, the running C checksum `(0-1)%9, (-1-1)%9` ends at
`-2`, `sprintf` appends the TWO characters `-2`, and `validate` — which
maps the `'-'` to `-3` — computes `-5 ≠ 2` and rejects the string.  For
contrast, opcode 1 (`TADD`) round-trips fine. -/
theorem opcode_5_fails_validation :
    t81bigint_from_int 5 = ⟨1, [-1, -1]⟩ ∧
    discrete_opcode_encode 5 = "TT-2".data ∧
    discrete_opcode_validate "TT-2".data = false ∧
    discrete_opcode_encode 1 = "11".data ∧
    discrete_opcode_validate "11".data = true := by
  refine ⟨by decide, ?_, by decide, ?_, by decide⟩ <;> decide
